import Mathlib

/-!
Verification development for the formula-one chat bot (src/main.py).
Each Python routine the claims touch is shallowly embedded as an
executable Lean definition; machine side effects (network fetches,
platform acknowledgements) are made explicit as values and action lists.
-/

namespace F1Bot

/-! ## Python dictionaries as association lists (insertion order kept) -/

abbrev Dict (α : Type) := List (String × α)

def dictGet {α : Type} (d : Dict α) (k : String) : Option α :=
  match d with
  | [] => none
  | (k2, v) :: rest => if k2 = k then some v else dictGet rest k

def dictSet {α : Type} (d : Dict α) (k : String) (v : α) : Dict α :=
  match d with
  | [] => [(k, v)]
  | (k2, v2) :: rest => if k2 = k then (k2, v) :: rest else (k2, v2) :: dictSet rest k v

/-! ## Response cache (src/main.py lines 80-102)

`get_cached_response(url, force_refresh=False)` reads the module-level
dict `cache` mapping a url to `(payload, fetchedAt)`.  The embedding
passes the cache state and the current time in, and returns the result
together with the new cache state and a flag recording whether the
network fetch `requests.get(url).json()` was performed.  The fetch
itself is a parameter: `Except.ok payload` for a successful round trip,
`Except.error e` for a failed one (network error or malformed body,
which raise in Python and propagate out of the function). -/

def CACHE_EXPIRY : Int := 3600

def get_cached_response {α : Type} (cache : Dict (α × Int)) (current_time : Int)
    (fetch : Except String α) (url : String) (force_refresh : Bool) :
    Except String α × Dict (α × Int) × Bool :=
  let hit : Option α :=
    match dictGet cache url, force_refresh with
    | some (cached_data, timestamp), false =>
        if current_time - timestamp < CACHE_EXPIRY then some cached_data else none
    | _, _ => none
  match hit with
  | some cached_data => (Except.ok cached_data, cache, false)
  | none =>
      match fetch with
      | Except.ok response => (Except.ok response, dictSet cache url (response, current_time), true)
      | Except.error e => (Except.error e, cache, true)

/-- A cache entry for `url` exists and is still fresh at `now`. -/
def freshHit {α : Type} (cache : Dict (α × Int)) (url : String) (now : Int) : Bool :=
  match dictGet cache url with
  | some (_, timestamp) => decide (now - timestamp < CACHE_EXPIRY)
  | none => false

/-! ## Team colors (src/main.py lines 24-118) -/

def TEAM_COLORS : List (String × Nat) := [
  ("Red Bull", 0x0600EF),
  ("Ferrari", 0xDC0000),
  ("Mercedes", 0x00D2BE),
  ("McLaren", 0xFF8700),
  ("Aston Martin", 0x006F62),
  ("Alpine", 0x0090FF),
  ("Williams", 0x005AFF),
  ("AlphaTauri", 0x2B4562),
  ("Alfa Romeo", 0x900000),
  ("Haas F1 Team", 0xFFFFFF),
  ("Racing Point", 0xF596C8),
  ("Renault", 0xFFF500),
  ("Toro Rosso", 0x469BFF),
  ("Sauber", 0x9B0000),
  ("Force India", 0xFF5F0F),
  ("Manor Marussia", 0x6E0000),
  ("Lotus F1", 0x000000),
  ("Marussia", 0x6E0000),
  ("Caterham", 0x006C00),
  ("HRT", 0x686868),
  ("Virgin", 0x323232),
  ("Brawn", 0xF0F0F0),
  ("Honda", 0x006633),
  ("Super Aguri", 0xE20B00),
  ("BMW Sauber", 0x6CD3BF),
  ("Spyker", 0xF24013),
  ("Midland", 0x9E0000),
  ("Jordan", 0xF9CB46),
  ("Jaguar", 0x358C75),
  ("BAR", 0xFDB000),
  ("Arrows", 0xFF8000),
  ("Minardi", 0x000000),
  ("Prost", 0x00005F),
  ("Benetton", 0x00841F),
  ("Stewart", 0xFFFFFF),
  ("Tyrrell", 0x3A36DB),
  ("Footwork", 0xFF8000),
  ("Ligier", 0x00007D),
  ("Simtek", 0xFFFFFF),
  ("Larrousse", 0xFFFFFF),
  ("Brabham", 0x487890),
  ("Fondmetal", 0xFFFFFF),
  ("March", 0x8D0060),
  ("Forti", 0xFF7F00),
  ("Pacific", 0x006633),
  ("RB F1 Team", 0x0600EF),
  ("Racing Bulls", 0x0600EF),
  ("Haas", 0xFFFFFF),
  ("AlphaTauri RB", 0x0600EF)]

def DEFAULT_COLOR : Nat := 0xFF5733

/-- Python `needle in haystack` on lists: contiguous sublist test. -/
def listIn {α : Type} [DecidableEq α] (needle haystack : List α) : Bool :=
  match haystack with
  | [] => needle.isEmpty
  | _ :: rest => needle.isPrefixOf haystack || listIn needle rest

/-- Python `needle in haystack` on strings: substring test. -/
def pyIn (needle haystack : String) : Bool :=
  listIn needle.data haystack.data

/-- Python `str.lower()` (ASCII case folding, which covers the table). -/
def pyLower (s : String) : String :=
  String.mk (s.data.map Char.toLower)

/-- The `for team, color in TEAM_COLORS.items()` fallback loop of
`get_team_color`: first entry matching the case-insensitive two-way
substring test wins, else the default color. -/
def teamColorLoop (team_name : String) : List (String × Nat) → Nat
  | [] => DEFAULT_COLOR
  | (team, color) :: rest =>
      if pyIn (pyLower team) (pyLower team_name) || pyIn (pyLower team_name) (pyLower team)
      then color
      else teamColorLoop team_name rest

def get_team_color (team_name : String) : Nat :=
  if team_name = "" then DEFAULT_COLOR
  else
    match dictGet TEAM_COLORS team_name with
    | some c => c
    | none => teamColorLoop team_name TEAM_COLORS

/-- The condition the source loop applies to one table entry. -/
def fuzzyMatch (team team_name : String) : Bool :=
  pyIn (pyLower team) (pyLower team_name) || pyIn (pyLower team_name) (pyLower team)

/-! ## Progress bar (src/main.py lines 120-126)

Python evaluates `(total_drivers - position) / (total_drivers - 1)` with
true division, raising `ZeroDivisionError` when `total_drivers == 1`;
the embedding returns `none` exactly there and models the float
arithmetic exactly over `ℚ`.  `int(x)` truncates toward zero. -/

def pyInt (x : ℚ) : Int :=
  if 0 ≤ x then ⌊x⌋ else -⌊-x⌋

def create_progress_bar (position total_drivers : Int) (width : Nat) : Option String :=
  if total_drivers - 1 = 0 then none
  else
    let progress : ℚ := max 0 (((total_drivers : ℚ) - (position : ℚ)) / ((total_drivers : ℚ) - 1))
    let filled : Int := pyInt ((width : ℚ) * progress)
    some (String.mk (List.replicate filled.toNat '█' ++
          List.replicate ((width : Int) - filled).toNat '░'))

/-- Clamping to the unit interval, as the spec words it. -/
def clamp01 (x : ℚ) : ℚ := min 1 (max 0 x)

/-- The spec-side bar with truncation (the amended reading). -/
def rankBarSpec (position total_drivers : Int) (width : Nat) : String :=
  let progress : ℚ := clamp01 (((total_drivers : ℚ) - (position : ℚ)) / ((total_drivers : ℚ) - 1))
  let filled : Nat := (⌊(width : ℚ) * progress⌋).toNat
  String.mk (List.replicate filled '█' ++ List.replicate (width - filled) '░')

/-- The bar exactly as the claim words it, with `round(width*progress)`. -/
def rankBarClaim (position total_drivers : Int) (width : Nat) : String :=
  let progress : ℚ := clamp01 (((total_drivers : ℚ) - (position : ℚ)) / ((total_drivers : ℚ) - 1))
  let filled : Nat := (round ((width : ℚ) * progress)).toNat
  String.mk (List.replicate filled '█' ++ List.replicate (width - filled) '░')

/-! ## Race results: podium text (src/main.py lines 153-203)

The handler iterates over `race_data["Results"]` in payload order.  For
each row it appends `f"{medal} **{name}** ({team})\n"` to `podium_text`
whenever `position_int <= 3`, picking the medal with a Python list index
`["🥇","🥈","🥉"][position_int - 1]` (negative indices wrap from the
end, out-of-range indices raise, modelled as `none`). -/

structure ResultRow where
  position : Int
  name : String
  team : String
deriving DecidableEq

def medalGlyphs : List String := ["🥇", "🥈", "🥉"]

/-- Python list subscription `l[i]`, with negative wrap-around. -/
def pyListGet {α : Type} (l : List α) (i : Int) : Option α :=
  let j : Int := if i < 0 then (l.length : Int) + i else i
  if 0 ≤ j then l.get? j.toNat else none

def podium_text : List ResultRow → Option String
  | [] => some ""
  | r :: rest =>
      if r.position ≤ 3 then
        match pyListGet medalGlyphs (r.position - 1), podium_text rest with
        | some medal, some tail =>
            some ((medal ++ " **" ++ r.name ++ "** (" ++ r.team ++ ")\n") ++ tail)
        | _, _ => none
      else podium_text rest

def concatAll (l : List String) : String := l.foldr (· ++ ·) ""

def onPodium (r : ResultRow) : Bool :=
  decide (r.position = 1) || decide (r.position = 2) || decide (r.position = 3)

def medalFor (position : Int) : String :=
  if position = 1 then "🥇" else if position = 2 then "🥈" else "🥉"

def podiumLine (r : ResultRow) : String :=
  medalFor r.position ++ " **" ++ r.name ++ "** (" ++ r.team ++ ")\n"

/-- The podium as the spec describes it, kept in the given row order. -/
def podiumSpec (rows : List ResultRow) : String :=
  concatAll ((rows.filter onPodium).map podiumLine)

/-- The podium as the claim words it: the rows of rank 1, then those of
rank 2, then those of rank 3, each prefixed with its medal glyph. -/
def podiumRankOrdered (rows : List ResultRow) : String :=
  concatAll (((rows.filter fun r => decide (r.position = 1))
      ++ (rows.filter fun r => decide (r.position = 2))
      ++ (rows.filter fun r => decide (r.position = 3))).map podiumLine)

/-! ## Race results: pagination (src/main.py lines 215-219)

`results.sort(key=lambda x: x[0])` followed by
`chunks = [results[i:i+7] for i in range(0, len(results), 7)]`. -/

abbrev ResultEntry := Int × String × Nat

def sort_results (results : List ResultEntry) : List ResultEntry :=
  results.mergeSort fun a b => decide (a.1 ≤ b.1)

def pyChunks7 {α : Type} (l : List α) : List (List α) :=
  match l with
  | [] => []
  | a :: rest => ((a :: rest).take 7) :: pyChunks7 ((a :: rest).drop 7)
termination_by l.length
decreasing_by
  simp only [List.length_drop, List.length_cons]
  omega

def results_chunks (results : List ResultEntry) : List (List ResultEntry) :=
  pyChunks7 (sort_results results)

/-! ## Next event countdown (src/main.py lines 546-557)

`time_diff = race_datetime - now` is a `timedelta`; the branch on
`time_diff.total_seconds() > 0` formats `time_diff.days`,
`divmod(time_diff.seconds, 3600)` and `divmod(remainder, 60)`.  The
embedding takes the signed difference in whole seconds. -/

def started_message : String := "🏁 **Race has started or completed**"

def countdownMsg (days hours minutes seconds : Nat) : String :=
  s!"🕒 **Countdown:** {days}d {hours}h {minutes}m {seconds}s"

def formatCountdown (diffSeconds : Int) : String :=
  if diffSeconds > 0 then
    let t : Nat := diffSeconds.toNat
    let days : Nat := t / 86400
    let daySeconds : Nat := t % 86400
    let hours : Nat := daySeconds / 3600
    let remainder : Nat := daySeconds % 3600
    let minutes : Nat := remainder / 60
    let seconds : Nat := remainder % 60
    countdownMsg days hours minutes seconds
  else
    started_message

/-! ## Handler skeletons (src/main.py lines 129-134, 241-246, 400-405,
525-530, 624-645)

For each slash-command handler, the program-order sequence of platform
acknowledgements and upstream fetches it performs, read off the source:
`interaction.response.defer()` is `ack`, a call to
`get_cached_response(url, force)` is `cachedFetch url force`, a direct
`requests.get(url).json()` is `directFetch url`, and each outgoing
message (`followup.send` or `response.send_message`) is `send`. -/

inductive BotAction where
  | ack : BotAction
  | cachedFetch (url : String) (force : Bool) : BotAction
  | directFetch (url : String) : BotAction
  | send : BotAction
deriving DecidableEq

def f1_results_actions (year round : Int) : List BotAction :=
  [BotAction.ack,
   BotAction.cachedFetch s!"https://ergast.com/api/f1/{year}/{round}/results.json" false,
   BotAction.send]

def f1_standings_drivers_actions (year : Int) (driver_id : String) : List BotAction :=
  [BotAction.ack,
   BotAction.cachedFetch s!"https://ergast.com/api/f1/{year}/driverStandings.json" false,
   BotAction.cachedFetch s!"https://ergast.com/api/f1/drivers/{driver_id}/driverStandings/1.json" false,
   BotAction.send]

def f1_standings_teams_actions (year : Int) : List BotAction :=
  [BotAction.ack,
   BotAction.cachedFetch s!"https://ergast.com/api/f1/{year}/constructorStandings.json" false,
   BotAction.send]

def f1_next_actions : List BotAction :=
  [BotAction.ack,
   BotAction.cachedFetch "https://ergast.com/api/f1/current/next.json" true,
   BotAction.send]

def f1_driver_actions (name : String) : List BotAction :=
  [BotAction.directFetch s!"https://ergast.com/api/f1/drivers/{name}.json",
   BotAction.send]

/-- The very first action is the deferred acknowledgement. -/
def acknowledgesFirst : List BotAction → Bool
  | BotAction.ack :: _ => true
  | _ => false

/-- Every upstream fetch in the trace goes through the response cache. -/
def fetchesOnlyThroughCache (l : List BotAction) : Bool :=
  l.all fun a =>
    match a with
    | BotAction.directFetch _ => false
    | _ => true

/-! ## Helper lemmas -/

theorem dictGet_dictSet {α : Type} (d : Dict α) (k : String) (v : α) :
    dictGet (dictSet d k v) k = some v := by
  induction d with
  | nil => simp [dictGet, dictSet]
  | cons hd tl ih =>
      obtain ⟨k2, v2⟩ := hd
      by_cases h : k2 = k
      · simp [dictGet, dictSet, h]
      · simp [dictGet, dictSet, h, ih]

/-! ## Claim theorems -/

/-- C1: if `force_refresh` is false and a cache entry for the url exists whose
age is strictly below the TTL of 3600 seconds, `get_cached_response` returns
the stored payload without fetching and leaves the cache unchanged; otherwise
(forced, entry absent, or entry stale) it performs the fetch, overwrites the
entry with the fetched payload paired with the current time, and returns the
fetched payload. -/
theorem cache_get_spec {α : Type} (cache : Dict (α × Int)) (now : Int)
    (url : String) (p : α) :
    (∀ d ts, dictGet cache url = some (d, ts) → now - ts < CACHE_EXPIRY →
      get_cached_response cache now (Except.ok p) url false = (Except.ok d, cache, false))
    ∧ (∀ force : Bool, force = true ∨ freshHit cache url now = false →
        get_cached_response cache now (Except.ok p) url force
            = (Except.ok p, dictSet cache url (p, now), true)
          ∧ dictGet (dictSet cache url (p, now)) url = some (p, now)) := by
  constructor
  · intro d ts h hfresh
    simp [get_cached_response, h, hfresh]
  · intro force hf
    refine ⟨?_, dictGet_dictSet cache url (p, now)⟩
    rcases hf with hf | hf
    · subst hf
      cases h : dictGet cache url with
      | none => simp [get_cached_response, h]
      | some v => obtain ⟨d, ts⟩ := v; simp [get_cached_response, h]
    · cases h : dictGet cache url with
      | none => cases force <;> simp [get_cached_response, h]
      | some v =>
          obtain ⟨d, ts⟩ := v
          simp only [freshHit, h, decide_eq_false_iff_not] at hf
          cases force <;> simp [get_cached_response, h, hf]

theorem cache_get_spec_witness :
    get_cached_response [("u", ((5 : Nat), (100 : Int)))] 101 (Except.ok 7) "u" false
        = (Except.ok 5, [("u", ((5 : Nat), (100 : Int)))], false)
      ∧ (get_cached_response [("u", ((5 : Nat), (100 : Int)))] 101 (Except.ok 7) "u" true
            = (Except.ok 7, dictSet [("u", ((5 : Nat), (100 : Int)))] "u" (7, 101), true)
          ∧ dictGet (dictSet [("u", ((5 : Nat), (100 : Int)))] "u" (7, 101)) "u"
            = some (7, 101)) :=
  ⟨(cache_get_spec [("u", (5, 100))] 101 "u" 7).1 5 100 (by decide) (by decide),
   (cache_get_spec [("u", (5, 100))] 101 "u" 7).2 true (Or.inl rfl)⟩

/-- C2: when the fetch fails (the request or JSON decoding raises), and a
fetch actually happens (forced, entry absent, or entry stale), the error
propagates to the caller, the cache is left exactly as it was (the failure
is not stored under the key), and no second fetch is attempted. -/
theorem cache_error_spec {α : Type} (cache : Dict (α × Int)) (now : Int)
    (url : String) (force : Bool) (e : String) :
    force = true ∨ freshHit cache url now = false →
    get_cached_response cache now (Except.error e) url force
      = (Except.error e, cache, true) := by
  intro hf
  rcases hf with hf | hf
  · subst hf
    cases h : dictGet cache url with
    | none => simp [get_cached_response, h]
    | some v => obtain ⟨d, ts⟩ := v; simp [get_cached_response, h]
  · cases h : dictGet cache url with
    | none => cases force <;> simp [get_cached_response, h]
    | some v =>
        obtain ⟨d, ts⟩ := v
        simp only [freshHit, h, decide_eq_false_iff_not] at hf
        cases force <;> simp [get_cached_response, h, hf]

theorem cache_error_spec_witness :
    get_cached_response ([] : Dict (Nat × Int)) 0 (Except.error "boom") "u" false
      = (Except.error "boom", [], true) :=
  cache_error_spec [] 0 "u" false "boom" (Or.inr (by decide))

theorem teamColorLoop_eq_find (team_name : String) (l : List (String × Nat)) :
    teamColorLoop team_name l
      = ((l.find? fun e => fuzzyMatch e.1 team_name).map Prod.snd).getD DEFAULT_COLOR := by
  induction l with
  | nil => simp [teamColorLoop]
  | cons hd tl ih =>
      obtain ⟨team, color⟩ := hd
      by_cases h : (pyIn (pyLower team) (pyLower team_name)
          || pyIn (pyLower team_name) (pyLower team)) = true
      · simp [teamColorLoop, h, List.find?_cons, fuzzyMatch]
      · simp only [Bool.not_eq_true] at h
        simp [teamColorLoop, h, List.find?_cons, fuzzyMatch, ih]

/-- C3: the empty name resolves to the default color; a name that is an
exact (case-sensitive) key of the team-color table resolves to the stored
color; any other non-empty name resolves to the color of the first table
entry, in table order, related to it by the case-insensitive two-way
substring test, and to the default color when no entry matches. -/
theorem get_team_color_spec (team_name : String) :
    (team_name = "" → get_team_color team_name = DEFAULT_COLOR)
    ∧ (∀ c, team_name ≠ "" → dictGet TEAM_COLORS team_name = some c →
        get_team_color team_name = c)
    ∧ (team_name ≠ "" → dictGet TEAM_COLORS team_name = none →
        get_team_color team_name
          = ((TEAM_COLORS.find? fun e => fuzzyMatch e.1 team_name).map
              Prod.snd).getD DEFAULT_COLOR) := by
  refine ⟨?_, ?_, ?_⟩
  · intro h
    simp [get_team_color, h]
  · intro c hne hexact
    simp [get_team_color, hne, hexact]
  · intro hne hnone
    simp [get_team_color, hne, hnone, teamColorLoop_eq_find]

theorem get_team_color_spec_witness :
    (get_team_color "Ferrari" = 0xDC0000)
    ∧ get_team_color "Scuderia Ferrari HP"
        = ((TEAM_COLORS.find? fun e => fuzzyMatch e.1 "Scuderia Ferrari HP").map
            Prod.snd).getD DEFAULT_COLOR :=
  ⟨(get_team_color_spec "Ferrari").2.1 0xDC0000 (by decide) (by decide),
   (get_team_color_spec "Scuderia Ferrari HP").2.2 (by decide) (by decide)⟩

/-- C4: the claim says the rank bar must not raise for a single-element
field; the code divides by `total_drivers - 1 = 0`, which raises
`ZeroDivisionError` in Python (embedded as `none`), for every position
and width. -/
theorem create_progress_bar_single_raises (position : Int) (width : Nat) :
    create_progress_bar position 1 width = none := by
  simp [create_progress_bar]

/-- C5 counterexample: at position 2 of 20 with width 20 the code truncates
`20 * 18/19 = 18.94…` to 18 filled glyphs, while the claim rounds it to 19,
so the rendered bars differ. -/
theorem create_progress_bar_not_rounded :
    create_progress_bar 2 20 20 ≠ some (rankBarClaim 2 20 20) := by
  have hcode : create_progress_bar 2 20 20
      = some (String.mk (List.replicate 18 '█' ++ List.replicate 2 '░')) := by
    simp only [create_progress_bar, pyInt]
    norm_num
    decide
  have hclaim : rankBarClaim 2 20 20
      = String.mk (List.replicate 19 '█' ++ List.replicate 1 '░') := by
    simp only [rankBarClaim, clamp01, round_eq]
    norm_num
    decide
  rw [hcode, hclaim]
  decide

/-- C5 (amended): for positions at least 1 and fields of at least two
drivers, the bar renders `⌊width * progress⌋` filled glyphs (Python `int`
truncation, not rounding) with `progress = (total - position)/(total - 1)`
clamped to the unit interval, followed by empty glyphs up to the width;
position 1 of 20 gives a fully filled bar and position 20 of 20 a fully
empty one. -/
theorem create_progress_bar_spec (position total_drivers : Int) (width : Nat) :
    (1 ≤ position → 2 ≤ total_drivers →
      create_progress_bar position total_drivers width
        = some (rankBarSpec position total_drivers width))
    ∧ create_progress_bar 1 20 20 = some "████████████████████"
    ∧ create_progress_bar 20 20 20 = some "░░░░░░░░░░░░░░░░░░░░" := by
  refine ⟨?_, ?_, ?_⟩
  · intro hp ht
    have hne : total_drivers - 1 ≠ 0 := by omega
    have hden : (0 : ℚ) < (total_drivers : ℚ) - 1 := by
      have : (2 : ℚ) ≤ (total_drivers : ℚ) := by exact_mod_cast ht
      linarith
    have hnum : (total_drivers : ℚ) - (position : ℚ) ≤ (total_drivers : ℚ) - 1 := by
      have : (1 : ℚ) ≤ (position : ℚ) := by exact_mod_cast hp
      linarith
    set x : ℚ := ((total_drivers : ℚ) - (position : ℚ)) / ((total_drivers : ℚ) - 1) with hx
    have hx1 : x ≤ 1 := by
      rw [hx, div_le_one hden]; exact hnum
    have hmax1 : max 0 x ≤ 1 := max_le (by norm_num) hx1
    have hclamp : clamp01 x = max 0 x := min_eq_right hmax1
    have hprog0 : (0 : ℚ) ≤ max 0 x := le_max_left 0 x
    have harg0 : (0 : ℚ) ≤ (width : ℚ) * max 0 x :=
      mul_nonneg (by positivity) hprog0
    have hpy : pyInt ((width : ℚ) * max 0 x) = ⌊(width : ℚ) * max 0 x⌋ := by
      rw [pyInt, if_pos harg0]
    have hfl0 : 0 ≤ ⌊(width : ℚ) * max 0 x⌋ := Int.floor_nonneg.mpr harg0
    have hflw : ⌊(width : ℚ) * max 0 x⌋ ≤ (width : Int) := by
      have h1 : (width : ℚ) * max 0 x ≤ (width : ℚ) := by
        calc (width : ℚ) * max 0 x ≤ (width : ℚ) * 1 :=
              mul_le_mul_of_nonneg_left hmax1 (by positivity)
          _ = (width : ℚ) := mul_one _
      calc ⌊(width : ℚ) * max 0 x⌋ ≤ ⌊(width : ℚ)⌋ := Int.floor_le_floor h1
        _ = (width : Int) := Int.floor_natCast width
    have htoNat : ((width : Int) - ⌊(width : ℚ) * max 0 x⌋).toNat
        = width - (⌊(width : ℚ) * max 0 x⌋).toNat := by omega
    rw [create_progress_bar, if_neg hne, rankBarSpec]
    simp only [← hx, hclamp, hpy, htoNat]
  · simp only [create_progress_bar, pyInt]
    norm_num
    decide
  · simp only [create_progress_bar, pyInt]
    norm_num
    decide

theorem create_progress_bar_spec_witness :
    (1 : Int) ≤ 1 ∧ (2 : Int) ≤ 20
      ∧ create_progress_bar 1 20 20 = some (rankBarSpec 1 20 20) :=
  ⟨by decide, by decide,
   (create_progress_bar_spec 1 20 20).1 (by decide) (by decide)⟩

theorem concatAll_cons (a : String) (l : List String) :
    concatAll (a :: l) = a ++ concatAll l := rfl

theorem podiumSpec_cons (r : ResultRow) (rest : List ResultRow) :
    podiumSpec (r :: rest)
      = if onPodium r then podiumLine r ++ podiumSpec rest else podiumSpec rest := by
  by_cases h : onPodium r <;> simp [podiumSpec, List.filter_cons, h, concatAll_cons]

theorem podium_text_eq (rows : List ResultRow)
    (hpos : ∀ r ∈ rows, 1 ≤ r.position) :
    podium_text rows = some (podiumSpec rows) := by
  induction rows with
  | nil => rfl
  | cons r rest ih =>
      have hr : 1 ≤ r.position := hpos r (by simp)
      have ihh := ih fun x hx => hpos x (by simp [hx])
      by_cases h3 : r.position ≤ 3
      · have hmedal : pyListGet medalGlyphs (r.position - 1) = some (medalFor r.position) := by
          have hcases : r.position = 1 ∨ r.position = 2 ∨ r.position = 3 := by omega
          rcases hcases with h | h | h <;> rw [h] <;> decide
        have hon : onPodium r = true := by
          simp only [onPodium, Bool.or_eq_true, decide_eq_true_eq]
          omega
        simp [podium_text, h3, hmedal, ihh, podiumSpec_cons, hon, podiumLine]
      · have hon : onPodium r = false := by
          simp only [onPodium, Bool.or_eq_false_iff, decide_eq_false_iff_not]
          omega
        simp [podium_text, h3, ihh, podiumSpec_cons, hon]

/-- C6 counterexample: when the payload rows are not already in rank order
the podium lines come out in payload order, not rank order, so the silver
medal line precedes the gold one. -/
theorem podium_not_rank_ordered :
    podium_text [⟨2, "B", "T"⟩, ⟨1, "A", "S"⟩]
      ≠ some (podiumRankOrdered [⟨2, "B", "T"⟩, ⟨1, "A", "S"⟩]) := by
  decide

/-- C6 (amended): for result rows with positions at least 1 that arrive
sorted by position (as the upstream payload provides them), the podium text
consists of exactly the rows of position 1, 2, 3, in that order, each
prefixed with the medal glyph matching its position; in general the rows
with position at most 3 are emitted in payload order. -/
theorem podium_spec_correct (rows : List ResultRow)
    (hpos : ∀ r ∈ rows, 1 ≤ r.position)
    (hsorted : rows.Pairwise fun a b => a.position ≤ b.position) :
    podium_text rows = some (podiumSpec rows)
    ∧ (rows.filter onPodium).Pairwise fun a b => a.position ≤ b.position :=
  ⟨podium_text_eq rows hpos, hsorted.filter onPodium⟩

theorem podium_spec_correct_witness :
    podium_text [⟨1, "A", "S"⟩, ⟨2, "B", "T"⟩, ⟨5, "C", "U"⟩]
        = some (podiumSpec [⟨1, "A", "S"⟩, ⟨2, "B", "T"⟩, ⟨5, "C", "U"⟩])
      ∧ ([⟨1, "A", "S"⟩, ⟨2, "B", "T"⟩, ⟨5, "C", "U"⟩].filter onPodium).Pairwise
          fun a b => a.position ≤ b.position :=
  podium_spec_correct [⟨1, "A", "S"⟩, ⟨2, "B", "T"⟩, ⟨5, "C", "U"⟩]
    (by decide) (by decide)

theorem pyChunks7_flatten {α : Type} (l : List α) :
    (pyChunks7 l).flatten = l := by
  induction l using pyChunks7.induct with
  | case1 => simp [pyChunks7]
  | case2 a rest ih =>
      rw [pyChunks7]
      simp only [List.flatten_cons, ih, List.take_append_drop]

theorem pyChunks7_map_length {α : Type} (l : List α) :
    (pyChunks7 l).map List.length
      = List.replicate (l.length / 7) 7
          ++ (if l.length % 7 = 0 then [] else [l.length % 7]) := by
  induction l using pyChunks7.induct with
  | case1 => simp [pyChunks7]
  | case2 a rest ih =>
      rw [pyChunks7]
      by_cases h : 7 ≤ rest.length + 1
      · simp only [List.map_cons, ih, List.length_take, List.length_drop, List.length_cons]
        have h1 : min 7 (rest.length + 1) = 7 := by omega
        have h2 : (rest.length + 1) / 7 = (rest.length + 1 - 7) / 7 + 1 := by omega
        have h3 : (rest.length + 1) % 7 = (rest.length + 1 - 7) % 7 := by omega
        rw [h1, h2, h3, List.replicate_succ]
        simp
      · have h4 : (a :: rest).drop 7 = [] := by
          apply List.drop_eq_nil_of_le
          simp only [List.length_cons]
          omega
        have h5 : (a :: rest).take 7 = a :: rest := by
          apply List.take_of_length_le
          simp only [List.length_cons]
          omega
        rw [h4, h5]
        simp only [pyChunks7, List.map_cons, List.map_nil, List.length_cons]
        have h6 : (rest.length + 1) / 7 = 0 := by omega
        have h7 : (rest.length + 1) % 7 = rest.length + 1 := by omega
        rw [h6, h7]
        simp

theorem pyChunks7_length {α : Type} (l : List α) :
    (pyChunks7 l).length = (l.length + 6) / 7 := by
  have h := congrArg List.length (pyChunks7_map_length l)
  simp only [List.length_map, List.length_append, List.length_replicate] at h
  by_cases h7 : l.length % 7 = 0 <;> simp only [h7, if_pos, if_neg] at h <;>
    simp at h <;> omega

/-- C7: the handler chunks the position-sorted result rows into consecutive
pages of 7, the last page holding the remainder: the pages concatenate back
to the sorted row list, every page except the last has exactly 7 rows, there
are exactly ceil(n/7) pages, and 23 rows give pages of sizes 7, 7, 7, 2. -/
theorem results_chunks_spec (results : List ResultEntry) :
    (results_chunks results).flatten = sort_results results
    ∧ (results_chunks results).map List.length
        = List.replicate (results.length / 7) 7
            ++ (if results.length % 7 = 0 then [] else [results.length % 7])
    ∧ (results_chunks results).length = (results.length + 6) / 7
    ∧ (results.length = 23 →
        (results_chunks results).map List.length = [7, 7, 7, 2]) := by
  have hlen : (sort_results results).length = results.length :=
    List.length_mergeSort results
  refine ⟨pyChunks7_flatten _, ?_, ?_, ?_⟩
  · rw [results_chunks, pyChunks7_map_length, hlen]
  · rw [results_chunks, pyChunks7_length, hlen]
  · intro h23
    rw [results_chunks, pyChunks7_map_length, hlen, h23]
    decide

theorem results_chunks_spec_witness :
    ((List.range 23).map fun i => ((i : Int), "x", (0 : Nat))).length = 23
      ∧ (results_chunks ((List.range 23).map fun i => ((i : Int), "x", (0 : Nat)))).map
          List.length = [7, 7, 7, 2] :=
  ⟨by decide,
   (results_chunks_spec ((List.range 23).map fun i => ((i : Int), "x", (0 : Nat)))).2.2.2
     (by decide)⟩

/-- C10: the next-event handler passes `force_refresh=True` on its single
fetch, and a forced `get_cached_response` always performs the network fetch,
overwrites the entry, and returns the freshly fetched payload, whatever the
age of any cached entry. -/
theorem f1_next_always_fetches :
    f1_next_actions
        = [BotAction.ack,
           BotAction.cachedFetch "https://ergast.com/api/f1/current/next.json" true,
           BotAction.send]
      ∧ ∀ (α : Type) (cache : Dict (α × Int)) (now : Int) (p : α) (url : String),
          get_cached_response cache now (Except.ok p) url true
            = (Except.ok p, dictSet cache url (p, now), true) := by
  refine ⟨rfl, ?_⟩
  intro α cache now p url
  cases h : dictGet cache url with
  | none => simp [get_cached_response, h]
  | some v => obtain ⟨d, ts⟩ := v; simp [get_cached_response, h]

/-- C8: when the event instant is strictly in the future the handler emits a
countdown built from the Euclidean day/hour/minute/second decomposition of
the (positive) difference, so the components are never negative and the
hour, minute and second fields stay in range; when the instant is at or
before now it emits the started-or-completed message instead. -/
theorem countdown_spec (diff : Int) :
    (0 < diff → ∃ d h m s : Nat,
        formatCountdown diff = countdownMsg d h m s
        ∧ (d : Int) * 86400 + h * 3600 + m * 60 + s = diff
        ∧ h < 24 ∧ m < 60 ∧ s < 60)
    ∧ (diff ≤ 0 → formatCountdown diff = started_message) := by
  constructor
  · intro hpos
    refine ⟨diff.toNat / 86400, diff.toNat % 86400 / 3600,
        diff.toNat % 86400 % 3600 / 60, diff.toNat % 86400 % 3600 % 60,
        ?_, ?_, ?_, ?_, ?_⟩
    · simp only [formatCountdown, if_pos hpos]
    · have hcast : (diff.toNat : Int) = diff := Int.toNat_of_nonneg (le_of_lt hpos)
      omega
    · omega
    · omega
    · omega
  · intro hneg
    simp only [formatCountdown, if_neg (by omega : ¬ diff > 0)]

theorem countdown_spec_witness :
    (0 : Int) < 183600
      ∧ (∃ d h m s : Nat,
          formatCountdown 183600 = countdownMsg d h m s
          ∧ (d : Int) * 86400 + h * 3600 + m * 60 + s = 183600
          ∧ h < 24 ∧ m < 60 ∧ s < 60)
      ∧ formatCountdown 183600 = "🕒 **Countdown:** 2d 3h 0m 0s"
      ∧ (-5 : Int) ≤ 0
      ∧ formatCountdown (-5) = started_message :=
  ⟨by decide, (countdown_spec 183600).1 (by decide), by decide, by decide,
   (countdown_spec (-5)).2 (by decide)⟩

/-- C9 counterexample: the driver-lookup handler neither defers first nor
fetches through the response cache; its first action is already the direct
network fetch. -/
theorem f1_driver_not_deferred_not_cached :
    acknowledgesFirst (f1_driver_actions "hamilton") = false
    ∧ fetchesOnlyThroughCache (f1_driver_actions "hamilton") = false :=
  ⟨rfl, rfl⟩

/-- C9 (amended): the race-results, driver-standings, constructor-standings
and next-event handlers all acknowledge the interaction first (deferred
response) before any network activity and perform every upstream fetch
through the response cache; the driver-lookup handler does neither: it
fetches directly, bypassing both the deferral and the cache. -/
theorem handlers_ack_then_cached_fetch (year round : Int) (driver_id name : String) :
    (acknowledgesFirst (f1_results_actions year round) = true
      ∧ fetchesOnlyThroughCache (f1_results_actions year round) = true)
    ∧ (acknowledgesFirst (f1_standings_drivers_actions year driver_id) = true
      ∧ fetchesOnlyThroughCache (f1_standings_drivers_actions year driver_id) = true)
    ∧ (acknowledgesFirst (f1_standings_teams_actions year) = true
      ∧ fetchesOnlyThroughCache (f1_standings_teams_actions year) = true)
    ∧ (acknowledgesFirst f1_next_actions = true
      ∧ fetchesOnlyThroughCache f1_next_actions = true)
    ∧ (acknowledgesFirst (f1_driver_actions name) = false
      ∧ fetchesOnlyThroughCache (f1_driver_actions name) = false) :=
  ⟨⟨rfl, rfl⟩, ⟨rfl, rfl⟩, ⟨rfl, rfl⟩, ⟨rfl, rfl⟩, rfl, rfl⟩

end F1Bot
